import Mathlib

/-!
Shallow embedding of `src/main.py` (Simplify Money gold-flow API).

Conventions of the embedding:
* Python floats are modelled as exact rationals (`ℚ`); Python's `round(x, d)`
  (round-half-to-even on the decimal scaling) is modelled by `roundTo d`,
  built on the half-even integer rounding `rhe`.
* Python strings used by the classifier are modelled as `List Char`;
  `str.lower()` is modelled by `lowerStr` (ASCII lowering, which agrees with
  Python on the ASCII keyword sets involved), and the Python substring test
  `needle in hay` by `hasSub`.
* The database is an explicit state (`DBState`): the `users` table is the list
  of user primary keys, the `purchases` table a list of `Purchase` rows in
  insertion order, `clock` a monotone creation-time stamp, and `nextTxn` the
  supply of fresh transaction identifiers (`uuid4` is modelled as drawing a
  fresh, never-repeated token, which is its documented contract; the schema
  additionally declares `txn_id` unique).
* The handlers are functions from a price and a state to a result and a new
  state; the only HTTP error raised by a handler is modelled with `HTTPError`.
-/

/-- Half-even rounding of a rational to an integer, as Python's `round`
performs on the scaled value: nearest integer, ties to the even one. -/
def rhe (x : ℚ) : ℤ :=
  if x - ⌊x⌋ < 1/2 then ⌊x⌋
  else if (1:ℚ)/2 < x - ⌊x⌋ then ⌊x⌋ + 1
  else if ⌊x⌋ % 2 = 0 then ⌊x⌋ else ⌊x⌋ + 1

/-- Python's `round(x, d)` on exact rationals: scale by `10 ^ d`, round
half-to-even, scale back. -/
def roundTo (d : ℕ) (x : ℚ) : ℚ := (rhe (x * 10 ^ d) : ℚ) / 10 ^ d

/-- ASCII lowering of a character list, modelling `str.lower()` on the
ASCII text the keyword sets consist of. -/
def lowerStr (m : List Char) : List Char := m.map Char.toLower

/-- Does `hay` start with `probe`? Helper for the substring test. -/
def startsWithL : List Char → List Char → Bool
  | [], _ => true
  | _ :: _, [] => false
  | a :: as, b :: bs => a == b && startsWithL as bs

/-- Python's substring containment `probe in hay` on character lists. -/
def hasSub (probe : List Char) : List Char → Bool
  | [] => probe.isEmpty
  | c :: t => startsWithL probe (c :: t) || hasSub probe t

/-- The set `GOLD_KEYWORDS` of `main.py` (a Python set; iteration order is
irrelevant to `any`, so a list is a faithful model). -/
def GOLD_KEYWORDS : List (List Char) :=
  [("gold".toList), ("24k".toList), ("24 karat".toList), ("22k".toList),
   ("sovereign gold bond".toList), ("sgb".toList), ("digital gold".toList),
   ("invest in gold".toList), ("gold price".toList), ("gold rate".toList),
   ("buy gold".toList), ("sell gold".toList), ("gold etf".toList),
   ("gold mutual fund".toList), ("gold returns".toList),
   ("gold inflation hedge".toList), ("gold taxation".toList)]

/-- The set `BUY_INTENT` of `main.py`. -/
def BUY_INTENT : List (List Char) :=
  [("buy".toList), ("purchase".toList), ("invest".toList), ("yes".toList),
   ("proceed".toList), ("confirm".toList), ("place order".toList)]

/-- Classifier `is_gold_related`: any gold keyword occurs in the lowered message. -/
def is_gold_related (message : List Char) : Bool :=
  GOLD_KEYWORDS.any fun kw => hasSub kw (lowerStr message)

/-- Classifier `has_buy_intent`: any buy-intent word occurs in the lowered message. -/
def has_buy_intent (message : List Char) : Bool :=
  BUY_INTENT.any fun w => hasSub w (lowerStr message)

/-- Default of `GOLD_PRICE_PER_GRAM_INR` in `main.py` (the env override makes the
price a parameter of the handlers below; this is its default value). -/
def GOLD_PRICE_PER_GRAM_INR_DEFAULT : ℚ := 6500

/-- A row of the `purchases` table. `txn_id` is the fresh token modelling the
generated `uuid4` string; `created_at` is the creation-time stamp. -/
structure Purchase where
  id : ℕ
  user_id : ℤ
  txn_id : ℕ
  grams : ℚ
  inr_amount : ℚ
  price_per_gram : ℚ
  provider : String
  status : String
  created_at : ℕ

/-- The persisted database plus the generators for fresh transaction
identifiers and creation-time stamps. -/
structure DBState where
  users : List ℤ
  purchases : List Purchase
  nextTxn : ℕ
  clock : ℕ

/-- The empty database (fresh schema, as created at startup). -/
def initState : DBState := ⟨[], [], 0, 0⟩

/-- Body of `POST /purchase`: pydantic parses `amount_in_inr` with `ge=1`
and `grams` with `ge=0.01`; those constraints appear as hypotheses of the
theorems, not in the type. -/
structure PurchaseRequest where
  user_id : ℤ
  amount_in_inr : Option ℚ
  grams : Option ℚ

/-- Response model `PurchaseReceipt` of `main.py`. -/
structure PurchaseReceipt where
  success : Bool
  message : String
  txn_id : ℕ
  user_id : ℤ
  grams : ℚ
  inr_amount : ℚ
  price_per_gram : ℚ
  provider : String
  created_at : ℕ

/-- An `HTTPException` raised by a handler. -/
structure HTTPError where
  status_code : ℕ
  detail : String

/-- Lookup `db.get(User, uid)` followed by insert-if-absent, as both handlers do. -/
def ensureUser (s : DBState) (uid : ℤ) : DBState :=
  if uid ∈ s.users then s else { s with users := uid :: s.users }

/-- The gram quantity the purchase handler computes:
`req.amount_in_inr / price_per_gram if req.amount_in_inr else req.grams`.
Python truthiness makes an amount of exactly `0` fall through to `req.grams`;
that branch and the `getD 0` defaults are unreachable once the pydantic
constraint `amount_in_inr ≥ 1` and the missing-both check have run. -/
def rawGrams (price : ℚ) (req : PurchaseRequest) : ℚ :=
  match req.amount_in_inr with
  | some a => if a = 0 then req.grams.getD 0 else a / price
  | none => req.grams.getD 0

/-- Handler of `POST /purchase`. Mirrors `main.py`: 400 when both fields are
missing; otherwise ensure the user row exists, convert between amount and
grams at the given price, round grams to 4 decimals and the INR amount
(computed from the *unrounded* grams) to 2 decimals, persist the row with a
fresh transaction identifier, and return the receipt. -/
def purchase (price : ℚ) (s : DBState) (req : PurchaseRequest) :
    Except HTTPError (PurchaseReceipt × DBState) :=
  if req.amount_in_inr = none ∧ req.grams = none then
    .error ⟨400, "Provide either amount_in_inr or grams"⟩
  else
    let s1 := ensureUser s req.user_id
    let g := rawGrams price req
    let row : Purchase :=
      { id := s1.purchases.length + 1
        user_id := req.user_id
        txn_id := s1.nextTxn
        grams := roundTo 4 g
        inr_amount := roundTo 2 (g * price)
        price_per_gram := price
        provider := "SimplifyMoney-DigitalGold"
        status := "SUCCESS"
        created_at := s1.clock }
    let receipt : PurchaseReceipt :=
      { success := true
        message := "Digital gold purchase successful (demo)."
        txn_id := row.txn_id
        user_id := req.user_id
        grams := row.grams
        inr_amount := row.inr_amount
        price_per_gram := price
        provider := row.provider
        created_at := row.created_at }
    .ok (receipt, { s1 with purchases := s1.purchases ++ [row],
                            nextTxn := s1.nextTxn + 1, clock := s1.clock + 1 })

/-- The receipt of a successful purchase, `none` on the 400 error. -/
def receiptOf (price : ℚ) (s : DBState) (req : PurchaseRequest) :
    Option PurchaseReceipt :=
  match purchase price s req with
  | .ok x => some x.1
  | .error _ => none

/-- Body of `POST /advisor`. -/
structure AdvisorRequest where
  message : List Char
  user_id : Option ℤ
  name : Option String
  email : Option String
  phone : Option String

/-- The `next_action` payload of the advisor response. `body_user_id = none`
encodes the placeholder the code substitutes for a falsy user id in the
example request body. -/
structure NextAction where
  label : String
  endpoint : String
  method : String
  body_user_id : Option ℤ
  body_amount_in_inr : ℚ

/-- Response model `AdvisorResponse` of `main.py`. -/
structure AdvisorResponse where
  is_gold_related : Bool
  response : String
  suggest_purchase : Bool
  redirect_to_purchase : Bool
  next_action : Option NextAction
  user_id : Option ℤ

/-- Python truthiness of an optional string: present and non-empty. -/
def optStrTruthy (o : Option String) : Bool :=
  match o with
  | none => false
  | some s => !s.isEmpty

/-- Auto-assigned primary key, modelled as one past the maximum existing id
(matching the storage engine's autoincrement on this demo schema). -/
def nextUserId (users : List ℤ) : ℤ := (users.foldr max 0) + 1

/-- The user-resolution prologue of the advisor handler:
`if user_id is None and (name or email or phone): ... elif user_id: ...`.
Note the Python truthiness in the `elif`: a supplied `user_id` of `0` takes
neither branch, so no row is created for it. -/
def resolveUser (s : DBState) (req : AdvisorRequest) : Option ℤ × DBState :=
  match req.user_id with
  | none =>
    if optStrTruthy req.name || optStrTruthy req.email || optStrTruthy req.phone then
      let uid := nextUserId s.users
      (some uid, { s with users := uid :: s.users })
    else (none, s)
  | some u =>
    if u ≠ 0 then (some u, ensureUser s u)
    else (some u, s)

/-- Canned advisor strings of `main.py`. -/
def genericRedirect : String :=
  "I can help with many finance topics. Ask about gold for advice and digital gold purchase options."

/-- The price fact line (numeric formatting beyond embedding the price is not
modelled further). -/
def priceFact (price : ℚ) : String :=
  "Indicative price: ₹" ++ toString price ++ " per gram."

/-- The hedge fact line. -/
def hedgeFact : String :=
  "Gold is a safe-haven asset and can hedge against inflation."

/-- The fixed promotional nudge. -/
def nudge : String :=
  "You can invest in gold via the Simplify Money app using **Digital Gold** — start with just ₹10."

/-- Handler of `POST /advisor`, mirroring `main.py`: resolve/create the user,
classify the message; a non-gold message gets the generic redirect with no
next action; a gold message always carries the `next_action` payload and
sets `redirect_to_purchase` from the buy-intent classifier. -/
def advisor (price : ℚ) (s : DBState) (req : AdvisorRequest) :
    AdvisorResponse × DBState :=
  let r := resolveUser s req
  let uid := r.1
  let s1 := r.2
  if is_gold_related req.message then
    let fact :=
      if hasSub ("price".toList) (lowerStr req.message) then priceFact price
      else hedgeFact
    let bodyUid :=
      match uid with
      | some u => if u = 0 then none else some u
      | none => none
    ({ is_gold_related := true
       response := fact ++ "\n" ++ nudge
       suggest_purchase := true
       redirect_to_purchase := has_buy_intent req.message
       next_action := some
         { label := "Buy digital gold now"
           endpoint := "/purchase"
           method := "POST"
           body_user_id := bodyUid
           body_amount_in_inr := 1000 }
       user_id := uid }, s1)
  else
    ({ is_gold_related := false
       response := genericRedirect
       suggest_purchase := false
       redirect_to_purchase := false
       next_action := none
       user_id := uid }, s1)

/-- Ordering used by `GET /purchases/{user_id}`: creation time descending. -/
def createdDesc (a b : Purchase) : Prop := b.created_at ≤ a.created_at

instance : DecidableRel createdDesc := fun _ _ => Nat.decLe _ _

instance : IsTotal Purchase createdDesc :=
  ⟨fun a b => le_total b.created_at a.created_at⟩

instance : IsTrans Purchase createdDesc :=
  ⟨fun _ _ _ h1 h2 => le_trans h2 h1⟩

/-- Handler of `GET /purchases/{user_id}`: the rows owned by the user, ordered by
creation time descending (`order_by(Purchase.created_at.desc())` modelled as
a sort of the filtered rows). -/
def list_purchases (s : DBState) (uid : ℤ) : List Purchase :=
  List.insertionSort createdDesc (s.purchases.filter fun p => p.user_id == uid)

/-- The state after one purchase request; a request rejected with the 400
error leaves the state unchanged. -/
def stepState (price : ℚ) (s : DBState) (req : PurchaseRequest) : DBState :=
  match purchase price s req with
  | .ok x => x.2
  | .error _ => s

/-- Run a sequence of purchase requests against a state. -/
def applyReqs (price : ℚ) : List PurchaseRequest → DBState → DBState
  | [], s => s
  | r :: rs, s => applyReqs price rs (stepState price s r)

/-- The stored transaction identifiers, in insertion order. -/
def txnIds (s : DBState) : List ℕ := s.purchases.map fun p => p.txn_id

/-! ## Helper lemmas -/

theorem rhe_eq_low (x : ℚ) (n : ℤ) (h1 : (n:ℚ) ≤ x) (h2 : x < (n:ℚ) + 1/2) :
    rhe x = n := by
  have hf : ⌊x⌋ = n := by
    rw [Int.floor_eq_iff]
    exact ⟨h1, by linarith⟩
  rw [rhe, hf, if_pos (by linarith)]

theorem roundTo_eq_low (d : ℕ) (x : ℚ) (n : ℤ)
    (h1 : (n:ℚ) ≤ x * 10 ^ d) (h2 : x * 10 ^ d < (n:ℚ) + 1/2) :
    roundTo d x = (n : ℚ) / 10 ^ d := by
  rw [roundTo, rhe_eq_low (x * 10 ^ d) n h1 h2]

theorem rhe_abs_sub (x : ℚ) : |(rhe x : ℚ) - x| ≤ 1/2 := by
  have hf1 : (⌊x⌋ : ℚ) ≤ x := Int.floor_le x
  have hf2 : x < ⌊x⌋ + 1 := Int.lt_floor_add_one x
  rw [rhe]
  split_ifs <;> rw [abs_le] <;> push_cast <;> constructor <;> linarith

theorem roundTo_abs_sub (d : ℕ) (x : ℚ) :
    |roundTo d x - x| ≤ 1 / (2 * 10 ^ d) := by
  have hpow : (0:ℚ) < 10 ^ d := by positivity
  have h := rhe_abs_sub (x * 10 ^ d)
  have hrw : roundTo d x - x = ((rhe (x * 10 ^ d) : ℚ) - x * 10 ^ d) / 10 ^ d := by
    rw [roundTo]; field_simp; ring
  rw [hrw, abs_div, abs_of_pos hpow, div_le_div_iff₀ hpow (by positivity)]
  calc |(rhe (x * 10 ^ d) : ℚ) - x * 10 ^ d| * (2 * 10 ^ d)
      ≤ (1/2) * (2 * 10 ^ d) := by
        apply mul_le_mul_of_nonneg_right h (by positivity)
    _ = 1 * 10 ^ d := by ring

theorem startsWithL_iff (probe hay : List Char) :
    startsWithL probe hay = true ↔ ∃ t, hay = probe ++ t := by
  induction probe generalizing hay with
  | nil => simp [startsWithL]
  | cons a as ih =>
    cases hay with
    | nil => simp [startsWithL]
    | cons b bs =>
      simp only [startsWithL, Bool.and_eq_true, beq_iff_eq, ih, List.cons_append,
        List.cons.injEq]
      constructor
      · rintro ⟨rfl, t, rfl⟩
        exact ⟨t, rfl, rfl⟩
      · rintro ⟨t, rfl, rfl⟩
        exact ⟨rfl, t, rfl⟩

theorem hasSub_iff (probe hay : List Char) :
    hasSub probe hay = true ↔ ∃ p t, hay = p ++ probe ++ t := by
  induction hay with
  | nil =>
    simp only [hasSub, List.isEmpty_iff]
    constructor
    · rintro rfl
      exact ⟨[], [], rfl⟩
    · rintro ⟨p, t, h⟩
      rcases List.append_eq_nil.mp h.symm with ⟨h1, h2⟩
      exact (List.append_eq_nil.mp h1).2
  | cons c cs ih =>
    simp only [hasSub, Bool.or_eq_true, startsWithL_iff, ih]
    constructor
    · rintro (⟨t, ht⟩ | ⟨p, t, ht⟩)
      · exact ⟨[], t, by simp [ht]⟩
      · exact ⟨c :: p, t, by simp [ht]⟩
    · rintro ⟨p, t, ht⟩
      cases p with
      | nil => exact Or.inl ⟨t, by simpa using ht⟩
      | cons x xs =>
        rcases List.cons.injEq .. ▸ ht with ⟨rfl, h2⟩
        exact Or.inr ⟨xs, t, by simpa using h2⟩

theorem rawGrams_amount (price a : ℚ) (uid : ℤ) (og : Option ℚ) (ha : a ≠ 0) :
    rawGrams price ⟨uid, some a, og⟩ = a / price := by
  simp [rawGrams, ha]

theorem ensureUser_purchases (s : DBState) (u : ℤ) :
    (ensureUser s u).purchases = s.purchases := by
  rw [ensureUser]; split <;> rfl

theorem ensureUser_nextTxn (s : DBState) (u : ℤ) :
    (ensureUser s u).nextTxn = s.nextTxn := by
  rw [ensureUser]; split <;> rfl

theorem ensureUser_clock (s : DBState) (u : ℤ) :
    (ensureUser s u).clock = s.clock := by
  rw [ensureUser]; split <;> rfl

/-! ## Claims -/

/-- Claim C9: `is_gold_related` returns true exactly when the lower-cased
message contains some keyword of the fixed gold-keyword set as a substring,
and `has_buy_intent` returns true exactly when the lower-cased message
contains some buy-intent word as a substring. -/
theorem claimC9 (msg : List Char) :
    (is_gold_related msg = true ↔
      ∃ kw ∈ GOLD_KEYWORDS, ∃ p t, lowerStr msg = p ++ kw ++ t) ∧
    (has_buy_intent msg = true ↔
      ∃ w ∈ BUY_INTENT, ∃ p t, lowerStr msg = p ++ w ++ t) := by
  constructor <;>
    simp only [is_gold_related, has_buy_intent, List.any_eq_true, hasSub_iff]

/-- Claim C5: the purchase handler raises HTTP 400 exactly when neither
`amount_in_inr` nor `grams` is present, and every request carrying at least
one of the two fields yields a successful receipt. -/
theorem claimC5 (price : ℚ) (s : DBState) (req : PurchaseRequest) :
    ((∃ e, purchase price s req = .error e ∧ e.status_code = 400) ↔
      (req.amount_in_inr = none ∧ req.grams = none)) ∧
    ((req.amount_in_inr ≠ none ∨ req.grams ≠ none) →
      ∃ r s', purchase price s req = .ok (r, s') ∧ r.success = true) := by
  by_cases h : req.amount_in_inr = none ∧ req.grams = none
  · refine ⟨⟨fun _ => h, fun _ => ?_⟩, fun hne => ?_⟩
    · exact ⟨⟨400, "Provide either amount_in_inr or grams"⟩,
        by rw [purchase, if_pos h], rfl⟩
    · rcases hne with h1 | h2
      · exact absurd h.1 h1
      · exact absurd h.2 h2
  · constructor
    · rw [purchase, if_neg h]
      simp [h]
    · intro _
      rw [purchase, if_neg h]
      exact ⟨_, _, rfl, rfl⟩

/-- Claim C2 counterexample: a request body supplying both a valid
`amount_in_inr` (1000 ≥ 1) and a valid `grams` (0.5 ≥ 0.01) is processed
into a successful receipt, not rejected with a client error. -/
theorem claimC2_cex :
    (receiptOf 6500 initState ⟨1, some 1000, some (1/2)⟩).isSome = true ∧
    (receiptOf 6500 initState ⟨1, some 1000, some (1/2)⟩).map (fun r => r.success)
      = some true := by
  constructor <;> simp [receiptOf, purchase]

/-- Claim C2 (amended): the purchase handler enforces only that at least one
of `amount_in_inr` and `grams` is present; a request that supplies both
fields, each passing its parsing constraint, is processed into a successful
receipt rather than rejected. -/
theorem claimC2 (price a g : ℚ) (s : DBState) (uid : ℤ)
    (ha : 1 ≤ a) (hg : 1/100 ≤ g) :
    ∃ r s', purchase price s ⟨uid, some a, some g⟩ = .ok (r, s') ∧
      r.success = true := by
  rw [purchase, if_neg (by simp)]
  exact ⟨_, _, rfl, rfl⟩

/-- Claim C2 witness: the amended statement at a concrete input. -/
theorem claimC2_witness :
    ∃ r s', purchase 6500 initState ⟨1, some 1000, some (1/2)⟩ = .ok (r, s') ∧
      r.success = true :=
  claimC2 6500 1000 (1/2) initState 1 (by norm_num) (by norm_num)

/-- Claim C10: when a request supplies both fields, `amount_in_inr` takes
precedence: the result is identical to that of the request with `grams`
dropped, the stored grams are recomputed as `amount / price` (rounded to 4
decimals), and the request is processed without error. -/
theorem claimC10 (price a g : ℚ) (s : DBState) (uid : ℤ) (ha : 1 ≤ a) :
    purchase price s ⟨uid, some a, some g⟩ = purchase price s ⟨uid, some a, none⟩ ∧
    ∃ r s', purchase price s ⟨uid, some a, some g⟩ = .ok (r, s') ∧
      r.grams = roundTo 4 (a / price) ∧
      r.inr_amount = roundTo 2 (a / price * price) := by
  have ha' : a ≠ 0 := by intro h; rw [h] at ha; linarith
  constructor
  · rw [purchase, purchase, if_neg (by simp), if_neg (by simp)]
    simp [rawGrams, ha']
  · rw [purchase, if_neg (by simp)]
    refine ⟨_, _, rfl, ?_, ?_⟩ <;>
      simp [rawGrams, ha']

/-- Claim C10 witness: the precedence statement at a concrete input. -/
theorem claimC10_witness :
    purchase 6500 initState ⟨7, some 1000, some (1/2)⟩
        = purchase 6500 initState ⟨7, some 1000, none⟩ ∧
    ∃ r s', purchase 6500 initState ⟨7, some 1000, some (1/2)⟩ = .ok (r, s') ∧
      r.grams = roundTo 4 (1000 / 6500) ∧
      r.inr_amount = roundTo 2 (1000 / 6500 * 6500) :=
  claimC10 6500 1000 (1/2) initState 7 (by norm_num)

/-- Claim C1 (amended): for every Purchase at creation time — amount-driven
or grams-driven — the stored and returned `inr_amount` is
`round(g_raw * price_per_gram, 2)` computed from the *pre-rounding* gram
value `g_raw` (`amount_in_inr / price_per_gram` when the amount is given,
the supplied `grams` otherwise), hence `round(amount_in_inr, 2)` in the
amount-driven case — it is not recomputed from the 4-decimal-rounded stored
grams; the persisted row carries the same figures with status SUCCESS. -/
theorem claimC1 (price : ℚ) (s : DBState) (req : PurchaseRequest)
    (hone : req.amount_in_inr ≠ none ∨ req.grams ≠ none)
    (hge : ∀ a, req.amount_in_inr = some a → 1 ≤ a) :
    ∃ r s', purchase price s req = .ok (r, s') ∧ r.success = true ∧
      (∀ a, req.amount_in_inr = some a →
        r.grams = roundTo 4 (a / price) ∧
        r.inr_amount = roundTo 2 (a / price * price) ∧
        (price ≠ 0 → r.inr_amount = roundTo 2 a)) ∧
      (req.amount_in_inr = none → ∀ g, req.grams = some g →
        r.grams = roundTo 4 g ∧ r.inr_amount = roundTo 2 (g * price)) ∧
      ∃ row, s'.purchases.getLast? = some row ∧ row.status = "SUCCESS" ∧
        row.grams = r.grams ∧ row.inr_amount = r.inr_amount := by
  have hc : ¬(req.amount_in_inr = none ∧ req.grams = none) := by
    rcases hone with h | h
    · exact fun hb => h hb.1
    · exact fun hb => h hb.2
  rw [purchase, if_neg hc]
  refine ⟨_, _, rfl, rfl, ?_, ?_, ?_⟩
  · intro a hA
    have ha : a ≠ 0 := by
      have := hge a hA
      intro h0
      rw [h0] at this
      linarith
    refine ⟨by simp [rawGrams, hA, ha], by simp [rawGrams, hA, ha], fun hp => ?_⟩
    simp [rawGrams, hA, ha, div_mul_cancel₀ a hp]
  · intro hN g hG
    exact ⟨by simp [rawGrams, hN, hG], by simp [rawGrams, hN, hG]⟩
  · exact ⟨_, by rw [List.getLast?_concat], rfl, rfl, rfl⟩

/-- Claim C1 witness: the amended statement at Scenario 1's input
(user 1, amount 1000, default price 6500). -/
theorem claimC1_witness :
    ∃ r s', purchase 6500 initState ⟨1, some 1000, none⟩ = .ok (r, s') ∧
      r.success = true ∧
      (∀ a, (⟨1, some 1000, none⟩ : PurchaseRequest).amount_in_inr = some a →
        r.grams = roundTo 4 (a / 6500) ∧
        r.inr_amount = roundTo 2 (a / 6500 * 6500) ∧
        ((6500 : ℚ) ≠ 0 → r.inr_amount = roundTo 2 a)) ∧
      ((⟨1, some 1000, none⟩ : PurchaseRequest).amount_in_inr = none →
        ∀ g, (⟨1, some 1000, none⟩ : PurchaseRequest).grams = some g →
        r.grams = roundTo 4 g ∧ r.inr_amount = roundTo 2 (g * 6500)) ∧
      ∃ row, s'.purchases.getLast? = some row ∧ row.status = "SUCCESS" ∧
        row.grams = r.grams ∧ row.inr_amount = r.inr_amount :=
  claimC1 6500 initState ⟨1, some 1000, none⟩ (Or.inl (by simp))
    (fun a h => by
      injection h with h'
      rw [← h']
      norm_num)

/-- Claim C1 counterexample: at Scenario 1's input the stored grams are
`0.1538` and the stored and returned `inr_amount` is `1000.0` — while
`round(0.1538 * 6500, 2) = 999.7`, so `inr_amount` differs from
`round(stored grams * price, 2)`, and also from the spec's quoted
`1000.07`. -/
theorem claimC1_cex :
    (receiptOf 6500 initState ⟨1, some 1000, none⟩).map (fun r => r.grams)
        = some 0.1538 ∧
    (receiptOf 6500 initState ⟨1, some 1000, none⟩).map (fun r => r.inr_amount)
        = some 1000 ∧
    roundTo 2 ((0.1538 : ℚ) * 6500) = 999.7 ∧
    ((1000 : ℚ) ≠ 999.7) ∧ ((1000 : ℚ) ≠ 1000.07) := by
  have h0 : ((1000 : ℚ) = 0) = False := by norm_num
  have h1 : roundTo 4 ((1000 : ℚ) / 6500) = 0.1538 := by
    rw [roundTo_eq_low 4 (1000 / 6500) 1538 (by norm_num) (by norm_num)]
    norm_num
  have h2 : roundTo 2 (1000 : ℚ) = 1000 := by
    rw [roundTo_eq_low 2 1000 100000 (by norm_num) (by norm_num)]
    norm_num
  have h3 : roundTo 2 ((0.1538 : ℚ) * 6500) = 999.7 := by
    rw [roundTo_eq_low 2 (0.1538 * 6500) 99970 (by norm_num) (by norm_num)]
    norm_num
  refine ⟨?_, ?_, h3, by norm_num, by norm_num⟩ <;>
    simp [receiptOf, purchase, rawGrams, h0, h1, h2]

/-- Claim C6: purchasing with `amount_in_inr = g * price` for a positive
gram quantity `g` (passing the `amount_in_inr ≥ 1` parsing constraint)
yields a receipt whose grams equal `round(g, 4)`, within half of the fourth
decimal place of `g`. -/
theorem claimC6 (price g : ℚ) (s : DBState) (uid : ℤ)
    (hp : 0 < price) (hg : 0 < g) (hv : 1 ≤ g * price) :
    ∃ r s', purchase price s ⟨uid, some (g * price), none⟩ = .ok (r, s') ∧
      r.grams = roundTo 4 g ∧ |r.grams - g| ≤ 1 / 20000 := by
  have hne : g * price ≠ 0 := ne_of_gt (by positivity)
  have hgr : rawGrams price ⟨uid, some (g * price), none⟩ = g := by
    rw [rawGrams_amount _ _ _ _ hne, mul_div_cancel_right₀ _ (ne_of_gt hp)]
  rw [purchase, if_neg (by simp)]
  refine ⟨_, _, rfl, by simp [hgr], ?_⟩
  have h := roundTo_abs_sub 4 g
  norm_num at h
  simpa [hgr] using h

/-- Claim C6 witness: the round-trip at `g = 2/13` grams and the default
price 6500 (so the amount is exactly 1000 INR). -/
theorem claimC6_witness :
    ∃ r s', purchase 6500 initState ⟨1, some (2/13 * 6500), none⟩ = .ok (r, s') ∧
      r.grams = roundTo 4 (2/13) ∧ |r.grams - 2/13| ≤ 1 / 20000 :=
  claimC6 6500 (2/13) initState 1 (by norm_num) (by norm_num) (by norm_num)

/-- Claim C3 (amended): the advisor response carries a `next_action`
descriptor exactly when the message is gold-related — with or without
buy-intent keywords — and that descriptor always names the `/purchase`
endpoint; `redirect_to_purchase` is true exactly when the message is
gold-related and has buy intent. -/
theorem claimC3 (price : ℚ) (s : DBState) (req : AdvisorRequest) :
    ((advisor price s req).1.next_action.isSome = true ↔
      is_gold_related req.message = true) ∧
    ((advisor price s req).1.redirect_to_purchase
      = (is_gold_related req.message && has_buy_intent req.message)) ∧
    (∀ na, (advisor price s req).1.next_action = some na →
      na.endpoint = "/purchase") := by
  by_cases hg : is_gold_related req.message <;>
    simp [advisor, hg]

/-- Claim C3 counterexample: Scenario 3's message is gold-related with no
buy-intent keyword, yet its response does carry a `next_action`
descriptor (the claim would require none). -/
theorem claimC3_cex :
    is_gold_related ("tell me about gold price".toList) = true ∧
    has_buy_intent ("tell me about gold price".toList) = false ∧
    (advisor 6500 initState
        ⟨("tell me about gold price".toList), none, none, none, none⟩).1.next_action.isSome
      = true ∧
    (advisor 6500 initState
        ⟨("tell me about gold price".toList), none, none, none, none⟩).1.redirect_to_purchase
      = false := by
  decide

/-- Claim C4 (amended): an advisor request supplying a `user_id` that is
absent from the user store creates a User row keyed by exactly that
identifier for every *nonzero* integer; a supplied `user_id` of 0 is falsy
in the handler and creates no row. -/
theorem claimC4 (price : ℚ) (s : DBState) (req : AdvisorRequest) (u : ℤ)
    (hu : req.user_id = some u) (h0 : u ≠ 0) (hmem : u ∉ s.users) :
    (advisor price s req).2.users = u :: s.users ∧
    (advisor price s req).1.user_id = some u := by
  have hres : resolveUser s req = (some u, { s with users := u :: s.users }) := by
    simp [resolveUser, hu, h0, ensureUser, hmem]
  by_cases hg : is_gold_related req.message <;>
    simp [advisor, hres, hg]

/-- Claim C4 witness: the amended statement for user id 5 on the empty
store. -/
theorem claimC4_witness :
    (advisor 6500 initState
        ⟨("hello".toList), some 5, none, none, none⟩).2.users = 5 :: initState.users ∧
    (advisor 6500 initState
        ⟨("hello".toList), some 5, none, none, none⟩).1.user_id = some 5 :=
  claimC4 6500 initState ⟨("hello".toList), some 5, none, none, none⟩ 5
    rfl (by decide) (by simp [initState])

/-- Claim C4 counterexample: a caller may supply `user_id = 0`, which is
absent from the empty store, yet the advisor creates no User row for it
(Python truthiness skips the creation branch). -/
theorem claimC4_cex :
    (⟨("hello".toList), some 0, none, none, none⟩ : AdvisorRequest).user_id = some 0 ∧
    (0 : ℤ) ∉ initState.users ∧
    (advisor 6500 initState
        ⟨("hello".toList), some 0, none, none, none⟩).2.users = [] := by
  refine ⟨rfl, by simp [initState], ?_⟩
  decide

/-- Claim C7: `GET /purchases/{user_id}` returns exactly the rows owned by
the given user (a permutation of the filtered table, every returned row
owned by that user), in creation-time-descending order, and the empty list
when the user owns no purchase (in particular when the user is unknown). -/
theorem claimC7 (s : DBState) (uid : ℤ) :
    (∀ p ∈ list_purchases s uid, p.user_id = uid) ∧
    (list_purchases s uid).Perm (s.purchases.filter fun p => p.user_id == uid) ∧
    List.Sorted createdDesc (list_purchases s uid) ∧
    ((∀ p ∈ s.purchases, p.user_id ≠ uid) → list_purchases s uid = []) := by
  have hperm : (list_purchases s uid).Perm
      (s.purchases.filter fun p => p.user_id == uid) :=
    List.perm_insertionSort _ _
  refine ⟨?_, hperm, List.sorted_insertionSort _ _, ?_⟩
  · intro p hp
    have hp' := hperm.mem_iff.mp hp
    simpa using (List.mem_filter.mp hp').2
  · intro hnone
    have hfil : s.purchases.filter (fun p => p.user_id == uid) = [] := by
      rw [List.filter_eq_nil_iff]
      intro p hp
      simpa using hnone p hp
    rw [list_purchases, hfil]
    rfl

/-- Claim C7 witness: the contract instantiated on the empty store and user
999 (Scenario 5: no purchases, empty result). -/
theorem claimC7_witness :
    (∀ p ∈ list_purchases initState 999, p.user_id = 999) ∧
    (list_purchases initState 999).Perm
      (initState.purchases.filter fun p => p.user_id == 999) ∧
    List.Sorted createdDesc (list_purchases initState 999) ∧
    ((∀ p ∈ initState.purchases, p.user_id ≠ 999) →
      list_purchases initState 999 = []) :=
  claimC7 initState 999

/-- A successful purchase appends one row carrying the fresh transaction
identifier and advances the identifier supply. -/
theorem purchase_ok_txn (price : ℚ) (s : DBState) (req : PurchaseRequest)
    (x : PurchaseReceipt × DBState) (h : purchase price s req = .ok x) :
    txnIds x.2 = txnIds s ++ [s.nextTxn] ∧ x.2.nextTxn = s.nextTxn + 1 := by
  by_cases hc : req.amount_in_inr = none ∧ req.grams = none
  · rw [purchase, if_pos hc] at h
    exact absurd h (by simp)
  · rw [purchase, if_neg hc] at h
    injection h with h'
    subst h'
    constructor
    · simp [txnIds, ensureUser_purchases, ensureUser_nextTxn]
    · simp [ensureUser_nextTxn]

/-- One request preserves the distinctness of the stored transaction
identifiers together with their bound by the identifier supply. -/
theorem stepState_inv (price : ℚ) (s : DBState) (req : PurchaseRequest)
    (h1 : (txnIds s).Nodup) (h2 : ∀ t ∈ txnIds s, t < s.nextTxn) :
    (txnIds (stepState price s req)).Nodup ∧
      ∀ t ∈ txnIds (stepState price s req), t < (stepState price s req).nextTxn := by
  unfold stepState
  cases hp : purchase price s req with
  | ok x =>
    obtain ⟨ht, hn⟩ := purchase_ok_txn price s req x hp
    rw [ht, hn]
    constructor
    · rw [List.nodup_append]
      refine ⟨h1, List.nodup_singleton _, ?_⟩
      intro t htl htr
      rw [List.mem_singleton] at htr
      exact absurd (htr ▸ h2 t htl) (lt_irrefl _)
    · intro t htmem
      rcases List.mem_append.mp htmem with hl | hr
      · exact lt_trans (h2 t hl) (Nat.lt_succ_self _)
      · rw [List.mem_singleton] at hr
        exact hr ▸ Nat.lt_succ_self _
  | error e => exact ⟨h1, h2⟩

/-- Every state reached by a sequence of purchase requests from a state with
distinct, bounded transaction identifiers keeps them distinct. -/
theorem applyReqs_inv (price : ℚ) (reqs : List PurchaseRequest) :
    ∀ s : DBState, (txnIds s).Nodup → (∀ t ∈ txnIds s, t < s.nextTxn) →
      (txnIds (applyReqs price reqs s)).Nodup := by
  induction reqs with
  | nil => intro s h1 _; simpa [applyReqs] using h1
  | cons r rs ih =>
    intro s h1 h2
    rw [applyReqs]
    obtain ⟨h1', h2'⟩ := stepState_inv price s r h1 h2
    exact ih _ h1' h2'

/-- Claim C8: across any sequence of purchase operations from the fresh
store, any two distinct stored Purchases carry different transaction
identifiers. -/
theorem claimC8 (price : ℚ) (reqs : List PurchaseRequest) :
    ((applyReqs price reqs initState).purchases).Pairwise
      (fun p q => p.txn_id ≠ q.txn_id) := by
  have h := applyReqs_inv price reqs initState
    (by simp [txnIds, initState]) (by simp [txnIds, initState])
  exact List.pairwise_map.mp h
